import Mathlib

/-
Verification development for the klog multi-source log tailer.
The definitions below are a shallow embedding of src/commands/log.rs:
pure fragments become Lean functions, the tokio select loop becomes an
explicit step function on a loop state driven by a script of iteration
inputs, and regex compilation and matching are abstracted as boolean
functions on strings.
-/

namespace Klog

/-- Data sent from background workers to the screen (models.rs, struct LogMessage). -/
structure LogMessage where
  pod_name : String
  container_name : String
  message : String
deriving DecidableEq

/-- Boolean check that the first char list is an initial segment of the second. -/
def startsWith : List Char → List Char → Bool
  | [], _ => true
  | _ :: _, [] => false
  | a :: as, b :: bs => a == b && startsWith as bs

/-- Boolean substring containment on char lists, modelling Rust str::contains. -/
def hasSubstr (needle : List Char) : List Char → Bool
  | [] => needle.isEmpty
  | c :: rest => startsWith needle (c :: rest) || hasSubstr needle rest

/-- Lower-cased character sequence of a string, modelling Rust String::to_lowercase
(at the ASCII subset Lean's Char.toLower covers). -/
def lowerChars (s : String) : List Char := s.toList.map Char.toLower

/-- Case-insensitive substring test used by the history search:
h.message.to_lowercase().contains(query.to_lowercase()) in log.rs line 209. -/
def containsCI (text query : String) : Bool :=
  hasSubstr (lowerChars query) (lowerChars text)

/-- The exclude guard of log.rs line 186: discard when an exclude pattern is set
and matches the message text. A compiled regex is abstracted as its match function. -/
def excludeDiscards (exclude_regex : Option (String → Bool)) (msg : String) : Bool :=
  match exclude_regex with
  | some re => re msg
  | none => false

/-- The include guard of log.rs line 187: discard when an include pattern is set
and does not match the message text. -/
def filterDiscards (filter_regex : Option (String → Bool)) (msg : String) : Bool :=
  match filter_regex with
  | some re => !re msg
  | none => false

/-- The Filter Engine decision of log.rs lines 186-187: the two sequential
continue guards, exclude first, then include; both read only log.message. -/
def keepLog (filter_regex exclude_regex : Option (String → Bool)) (log : LogMessage) : Bool :=
  if excludeDiscards exclude_regex log.message then false
  else if filterDiscards filter_regex log.message then false
  else true

/-- One append to the History Buffer, log.rs lines 183-184:
if history.len() >= 1000 the front is popped, then the message is pushed at the back. -/
def histAppend (history : List LogMessage) (log : LogMessage) : List LogMessage :=
  (if history.length ≥ 1000 then history.tail else history) ++ [log]

/-- The history search of log.rs lines 208-210: filter the retained messages by
case-insensitive substring containment of the query, preserving order. -/
def searchHistory (history : List LogMessage) (query : String) : List LogMessage :=
  history.filter (fun h => containsCI h.message query)

/-- Numeric value of a digit sequence, most significant first. -/
def digitsVal (ds : List Char) : Nat :=
  ds.foldl (fun a c => a * 10 + (c.toNat - 48)) 0

/-- Model of Rust str::parse::<i64>: an optional sign followed by at least one
ASCII digit, with the resulting value required to fit in a signed 64-bit integer. -/
def parse_i64 (s : String) : Option Int :=
  let cs := s.toList
  let sd : Int × List Char :=
    match cs with
    | '+' :: rest => (1, rest)
    | '-' :: rest => (-1, rest)
    | _ => (1, cs)
  if sd.2.isEmpty then none
  else if sd.2.all Char.isDigit then
    let v : Int := sd.1 * (digitsVal sd.2 : Int)
    if -(2 ^ 63) ≤ v ∧ v ≤ 2 ^ 63 - 1 then some v else none
  else none

/-- Outcome of resolving the tail argument: the tail_lines value handed to
LogParams, and whether the invalid-value warning was printed. -/
structure TailSetting where
  value : Option Int
  warned : Bool
deriving DecidableEq

/-- The tail_setting computation of tail_logs, log.rs lines 262-272: "*" means
unbounded, a parsable integer is used as is, anything else warns and defaults to 50. -/
def tail_setting (tail : String) : TailSetting :=
  if tail = "*" then ⟨none, false⟩
  else
    match parse_i64 tail with
    | some num => ⟨some num, false⟩
    | none => ⟨some 50, true⟩

/-- The read loop of tail_logs, log.rs lines 284-295: each Ok line is tagged and
sent; an Err line is skipped by the if-let and reading continues; a failed send
(receive side dropped, modelled by recvAlive = false) breaks the loop. The result
is the list of messages delivered to the shared channel. -/
def tail_logs (pod container : String) (recvAlive : Bool) :
    List (Except String String) → List LogMessage
  | [] => []
  | Except.ok line :: rest =>
    if recvAlive then
      ⟨pod, container, line⟩ :: tail_logs pod container recvAlive rest
    else []
  | Except.error _ :: rest => tail_logs pod container recvAlive rest

/-- A worker that stops at the first read error, following the claim wording
that a read error from the line stream causes the worker to stop rather than
continue reading; compared against tail_logs, which is taken from the source. -/
def workerStopsOnReadError (pod container : String) :
    List (Except String String) → List LogMessage
  | [] => []
  | Except.ok line :: rest => ⟨pod, container, line⟩ :: workerStopsOnReadError pod container rest
  | Except.error _ :: _ => []

/-- A keypress the loop can observe (KeyEventKind::Press). The search key carries
the scripted outcomes of its branch: the query the operator types, whether the
inquire prompt succeeds, and whether re-entering raw mode succeeds. -/
inductive KeyPress
  | q
  | s (query : String) (promptOk : Bool) (reRawOk : Bool)
  | other
deriving DecidableEq

/-- What the keyboard side of one iteration holds: nothing pending, a pending
press, a failure of event::poll, or a failure of event::read. -/
inductive KeyEvt
  | noKey
  | press (k : KeyPress)
  | pollErr
  | readErr
deriving DecidableEq

/-- How one iteration of the select loop ends: fall through to the next
iteration, break out via the quit key (cleanup then runs), or an early error
return through the question-mark operator (cleanup does not run). -/
inductive IterExit
  | next
  | breakQuit
  | errReturn
deriving DecidableEq

/-- State owned by the control loop: the history buffer, the lines handed to the
renderer, and whether the terminal is currently in raw mode. -/
structure LoopState where
  history : List LogMessage
  rendered : List LogMessage
  rawMode : Bool
deriving DecidableEq

/-- The polling tick of the select loop, log.rs line 194: Duration::from_millis(50). -/
def tickMillis : Nat := 50

/-- The keyboard poll timeout inside the tick branch, log.rs line 195:
Duration::from_millis(0). -/
def pollTimeoutMillis : Nat := 0

/-- One iteration of the tokio select loop, log.rs lines 180-231. A pending
channel message wins the race because the 50 ms sleep is recreated every
iteration and so is never ready first; the keyboard is polled, with a zero
timeout, only in the sleep branch. The third component records whether the
pending key event was consumed this iteration. -/
def loopIter (filter_regex exclude_regex : Option (String → Bool)) (st : LoopState) :
    Option LogMessage → KeyEvt → LoopState × IterExit × Bool
  | some log, _ =>
    let st1 := { st with history := histAppend st.history log }
    if keepLog filter_regex exclude_regex log then
      ({ st1 with rendered := st1.rendered ++ [log] }, IterExit.next, false)
    else (st1, IterExit.next, false)
  | none, KeyEvt.noKey => (st, IterExit.next, false)
  | none, KeyEvt.pollErr => (st, IterExit.errReturn, false)
  | none, KeyEvt.readErr => (st, IterExit.errReturn, false)
  | none, KeyEvt.press KeyPress.q => (st, IterExit.breakQuit, true)
  | none, KeyEvt.press (KeyPress.s query promptOk reRawOk) =>
    let st1 := { st with rawMode := false }
    if !promptOk then (st1, IterExit.errReturn, true)
    else
      let _matches := searchHistory st1.history query
      if !reRawOk then (st1, IterExit.errReturn, true)
      else ({ st1 with rawMode := true }, IterExit.next, true)
  | none, KeyEvt.press KeyPress.other => (st, IterExit.next, true)

/-- How the whole start_log_stream call ends: Ok(()) after the quit key,
an error propagated by a question mark, a panic from Regex::new(..).unwrap(),
or the input script running out while the loop is still live. -/
inductive Outcome
  | ok
  | err
  | panic
  | outOfInput
deriving DecidableEq

/-- Runs the select loop over a script of iteration inputs. On breakQuit the
cleanup_terminal of log.rs lines 299-312 runs: raw mode is disabled and the
footer line cleared; on an error return it does not. The Bool records whether
cleanup ran. -/
def runLoop (filter_regex exclude_regex : Option (String → Bool)) :
    LoopState → List (Option LogMessage × KeyEvt) → LoopState × Bool × Outcome
  | st, [] => (st, false, Outcome.outOfInput)
  | st, (ch, kev) :: rest =>
    match loopIter filter_regex exclude_regex st ch kev with
    | (st1, IterExit.next, _) => runLoop filter_regex exclude_regex st1 rest
    | (st1, IterExit.breakQuit, _) => ({ st1 with rawMode := false }, true, Outcome.ok)
    | (st1, IterExit.errReturn, _) => (st1, false, Outcome.err)

/-- Whether Regex::new would succeed on every pattern present, with regex
syntax validity abstracted as a predicate on pattern strings. -/
def compileOk (valid : String → Bool) : Option String → Bool
  | some p => valid p
  | none => true

/-- Observable result of one start_log_stream call: which workers were spawned,
the final history and rendered lines, the final raw-mode flag, whether the
footer line was cleared, and how the call ended. -/
structure RunResult where
  spawned : List (String × String)
  history : List LogMessage
  rendered : List LogMessage
  rawMode : Bool
  footerCleared : Bool
  outcome : Outcome
deriving DecidableEq

/-- The start_log_stream procedure of log.rs lines 153-237, in source order:
spawn one worker per target (lines 165-170), enable raw mode (line 174), compile
the include then the exclude pattern with unwrap (lines 177-178, a panic on an
invalid pattern), then run the select loop. valid abstracts regex syntax
validity and compile the match semantics of a valid pattern. -/
def start_log_stream (valid : String → Bool) (compile : String → String → Bool)
    (targets : List (String × String)) (filter exclude : Option String)
    (inputs : List (Option LogMessage × KeyEvt)) : RunResult :=
  let spawned := targets
  if !compileOk valid filter then
    ⟨spawned, [], [], true, false, Outcome.panic⟩
  else if !compileOk valid exclude then
    ⟨spawned, [], [], true, false, Outcome.panic⟩
  else
    let fR := filter.map compile
    let eR := exclude.map compile
    match runLoop fR eR ⟨[], [], true⟩ inputs with
    | (st, cleaned, oc) =>
      ⟨spawned, st.history, st.rendered,
        if cleaned then false else st.rawMode, cleaned, oc⟩

/-! ### Helper lemmas -/

theorem hasSubstr_nil (l : List Char) : hasSubstr [] l = true := by
  cases l <;> simp [hasSubstr, startsWith]

theorem containsCI_empty_query (t : String) : containsCI t "" = true := by
  have h : lowerChars "" = [] := rfl
  rw [containsCI, h]
  exact hasSubstr_nil _

theorem hist_foldl_drop (msgs : List LogMessage) :
    msgs.foldl histAppend [] = msgs.drop (msgs.length - 1000) := by
  induction msgs using List.reverseRecOn with
  | nil => rfl
  | append_singleton ms m ih =>
    rw [List.foldl_append, List.foldl_cons, List.foldl_nil, ih]
    by_cases h : 1000 ≤ ms.length
    · have hlen : (ms.drop (ms.length - 1000)).length = 1000 := by
        rw [List.length_drop]; omega
      have hge : (ms.drop (ms.length - 1000)).length ≥ 1000 := by omega
      rw [histAppend, if_pos hge, List.tail_drop]
      have h2 : (ms ++ [m]).length - 1000 = (ms.length - 1000) + 1 := by
        rw [List.length_append]; simp; omega
      rw [h2, List.drop_append_of_le_length (by omega)]
    · have h1 : ms.length - 1000 = 0 := by omega
      have h2 : (ms ++ [m]).length - 1000 = 0 := by
        rw [List.length_append]; simp; omega
      have h3 : ¬ ms.length ≥ 1000 := by omega
      rw [h1, h2, List.drop_zero, List.drop_zero, histAppend, if_neg h3]

/-! ### Claim theorems -/

/-- C1: the Filter Engine keeps a message iff (no exclude pattern is set OR the
exclude pattern does not match the message text) AND (no include pattern is set
OR the include pattern matches the message text); an exclude match always
discards regardless of the include pattern; both guards read the message text
only, never the pod or container name. -/
theorem filter_engine_keep_iff (fR eR : Option (String → Bool)) (log : LogMessage) :
    (keepLog fR eR log = true ↔
      ((∀ re, eR = some re → re log.message = false) ∧
       (∀ re, fR = some re → re log.message = true)))
    ∧ (∀ re, eR = some re → re log.message = true → keepLog fR eR log = false)
    ∧ (∀ log2 : LogMessage, log2.message = log.message →
        keepLog fR eR log2 = keepLog fR eR log) := by
  refine ⟨?_, ?_, ?_⟩
  · cases eR with
    | none =>
      cases fR with
      | none => simp [keepLog, excludeDiscards, filterDiscards]
      | some f =>
        cases hf : f log.message <;>
          simp [keepLog, excludeDiscards, filterDiscards, hf]
    | some e =>
      cases he : e log.message with
      | false =>
        cases fR with
        | none => simp [keepLog, excludeDiscards, filterDiscards, he]
        | some f =>
          cases hf : f log.message <;>
            simp [keepLog, excludeDiscards, filterDiscards, he, hf]
      | true => simp [keepLog, excludeDiscards, filterDiscards, he]
  · intro re he hm
    simp [keepLog, excludeDiscards, he, hm]
  · intro log2 h2
    simp [keepLog, excludeDiscards, filterDiscards, h2]

/-- Witness for C1: with both patterns set and both matching, the exclude
match discards the message. -/
theorem filter_engine_keep_iff_witness :
    keepLog (some (fun _ => true)) (some (fun _ => true)) ⟨"p", "c", "m"⟩ = false :=
  (filter_engine_keep_iff (some (fun _ => true)) (some (fun _ => true))
    ⟨"p", "c", "m"⟩).2.1 (fun _ => true) rfl rfl

/-- C2: after any sequence of appends the History Buffer never exceeds 1000
entries and holds exactly the most recently appended messages, oldest first —
stated as: the fold of appends equals dropping all but the last 1000 appended
messages. -/
theorem history_buffer_bounded_fifo (msgs : List LogMessage) :
    (msgs.foldl histAppend []).length ≤ 1000
    ∧ msgs.foldl histAppend [] = msgs.drop (msgs.length - 1000) := by
  have h := hist_foldl_drop msgs
  refine ⟨?_, h⟩
  rw [h, List.length_drop]
  omega

/-- C3: the history search returns exactly the order-preserving subsequence of
retained messages whose text contains the query case-insensitively; it returns
the empty list when nothing matches and the full history for the empty query. -/
theorem history_search_spec (history : List LogMessage) (q : String) :
    searchHistory history q = history.filter (fun h => containsCI h.message q)
    ∧ List.Sublist (searchHistory history q) history
    ∧ ((∀ h ∈ history, containsCI h.message q = false) → searchHistory history q = [])
    ∧ (q = "" → searchHistory history q = history) := by
  refine ⟨rfl, List.filter_sublist _, ?_, ?_⟩
  · intro hnone
    apply List.filter_eq_nil_iff.mpr
    intro a ha
    simp [hnone a ha]
  · intro hq
    subst hq
    apply List.filter_eq_self.mpr
    intro a _
    exact containsCI_empty_query a.message

/-- Witness for C3: the empty query returns the whole history and a query
matching nothing returns the empty list. -/
theorem history_search_spec_witness :
    searchHistory [⟨"p", "c", "ready"⟩] "" = [⟨"p", "c", "ready"⟩]
    ∧ searchHistory [⟨"p", "c", "ready"⟩] "zz" = [] :=
  ⟨(history_search_spec [⟨"p", "c", "ready"⟩] "").2.2.2 rfl,
   (history_search_spec [⟨"p", "c", "ready"⟩] "zz").2.2.1 (by decide)⟩

/-- C4: a worker whose source yields exactly the lines L1..Ln, all successful,
sends exactly n messages tagged with its pod and container name, in order,
and nothing further. -/
theorem stream_worker_delivers_in_order (pod container : String) (lines : List String) :
    tail_logs pod container true (lines.map Except.ok)
      = lines.map (fun l => ⟨pod, container, l⟩)
    ∧ (tail_logs pod container true (lines.map Except.ok)).length = lines.length := by
  have h : ∀ ls : List String, tail_logs pod container true (ls.map Except.ok)
      = ls.map (fun l => (⟨pod, container, l⟩ : LogMessage)) := by
    intro ls
    induction ls with
    | nil => rfl
    | cons a as ih => simp [tail_logs, ih]
  refine ⟨h lines, ?_⟩
  rw [h lines]
  simp

/-- C10: the tail argument "*" yields an unbounded tail; an integer string
yields exactly that count; any other string is not an error and resolves to
the default 50 with a warning. -/
theorem tail_arg_resolution :
    tail_setting "*" = ⟨none, false⟩
    ∧ (∀ s n, s ≠ "*" → parse_i64 s = some n → tail_setting s = ⟨some n, false⟩)
    ∧ (∀ s, s ≠ "*" → parse_i64 s = none → tail_setting s = ⟨some 50, true⟩) := by
  refine ⟨rfl, ?_, ?_⟩
  · intro s n hs hp
    simp [tail_setting, hs, hp]
  · intro s hs hp
    simp [tail_setting, hs, hp]

/-- Witness for C10: a numeric string and a garbage string. -/
theorem tail_arg_resolution_witness :
    tail_setting "7" = ⟨some 7, false⟩ ∧ tail_setting "abc" = ⟨some 50, true⟩ :=
  ⟨tail_arg_resolution.2.1 "7" 7 (by decide) (by decide),
   tail_arg_resolution.2.2 "abc" (by decide) (by decide)⟩

/-- C5 counterexample: with the quit key pending on every iteration while a
message arrives on every iteration, the loop handles only the messages; the
key is never consumed and the loop never stops, so a pending quit is not
handled on the next iteration while messages are continuously arriving. -/
theorem select_loop_starvation_cex :
    runLoop none none ⟨[], [], true⟩
        [(some ⟨"p", "c", "m1"⟩, KeyEvt.press KeyPress.q),
         (some ⟨"p", "c", "m2"⟩, KeyEvt.press KeyPress.q)]
      = (⟨[⟨"p", "c", "m1"⟩, ⟨"p", "c", "m2"⟩],
          [⟨"p", "c", "m1"⟩, ⟨"p", "c", "m2"⟩], true⟩,
         false, Outcome.outOfInput) := by decide

/-- C5 amended: each iteration races a pending channel message against a fresh
50 ms sleep; a pending message always wins and leaves the keyboard unread, and
the keyboard is polled with a zero timeout only in an iteration where no
message arrives within the tick — where a pending quit key then stops the loop
and an idle tick just iterates again. -/
theorem select_loop_tick_keyboard (fR eR : Option (String → Bool)) (st : LoopState)
    (log : LogMessage) (kev : KeyEvt) :
    ((loopIter fR eR st (some log) kev).2.2 = false
      ∧ (loopIter fR eR st (some log) kev).2.1 = IterExit.next)
    ∧ loopIter fR eR st none (KeyEvt.press KeyPress.q) = (st, IterExit.breakQuit, true)
    ∧ loopIter fR eR st none KeyEvt.noKey = (st, IterExit.next, false)
    ∧ tickMillis = 50 ∧ pollTimeoutMillis = 0 := by
  refine ⟨⟨?_, ?_⟩, rfl, rfl, rfl, rfl⟩ <;>
    cases h : keepLog fR eR log <;> simp [loopIter, h]

/-- C6: evaluation at the failing input. When event::poll fails inside the
loop, the call returns the error with raw mode still enabled and the footer
not cleared — cleanup_terminal runs only on the quit-key break path, where raw
mode is disabled and the footer cleared. -/
theorem raw_mode_leak_on_poll_error :
    ((start_log_stream (fun _ => true) (fun _ _ => true) [] none none
        [(none, KeyEvt.pollErr)]).outcome = Outcome.err
      ∧ (start_log_stream (fun _ => true) (fun _ _ => true) [] none none
        [(none, KeyEvt.pollErr)]).rawMode = true
      ∧ (start_log_stream (fun _ => true) (fun _ _ => true) [] none none
        [(none, KeyEvt.pollErr)]).footerCleared = false)
    ∧ ((start_log_stream (fun _ => true) (fun _ _ => true) [] none none
        [(none, KeyEvt.press KeyPress.q)]).outcome = Outcome.ok
      ∧ (start_log_stream (fun _ => true) (fun _ _ => true) [] none none
        [(none, KeyEvt.press KeyPress.q)]).rawMode = false
      ∧ (start_log_stream (fun _ => true) (fun _ _ => true) [] none none
        [(none, KeyEvt.press KeyPress.q)]).footerCleared = true) := by decide

/-- C7 counterexample: with one target and an invalid include pattern, the call
panics, but the worker for the target has already been spawned when the panic
happens, so the abort does not occur before any Stream Worker is started. -/
theorem invalid_pattern_cex :
    (start_log_stream (fun _ => false) (fun _ _ => true) [("pod1", "c1")]
        (some "(") none []).outcome = Outcome.panic
    ∧ (start_log_stream (fun _ => false) (fun _ _ => true) [("pod1", "c1")]
        (some "(") none []).spawned = [("pod1", "c1")]
    ∧ ([("pod1", "c1")] : List (String × String)) ≠ [] := by decide

/-- C7 amended: a syntactically invalid include or exclude pattern makes the
call abort by panic before the control loop handles any message — the history
stays empty, nothing is rendered, and no per-message error ever arises — but
the abort happens after the stream workers have been spawned. -/
theorem invalid_pattern_panics_before_loop (valid : String → Bool)
    (compile : String → String → Bool) (targets : List (String × String))
    (filter exclude : Option String) (inputs : List (Option LogMessage × KeyEvt))
    (h : compileOk valid filter = false ∨ compileOk valid exclude = false) :
    (start_log_stream valid compile targets filter exclude inputs).outcome = Outcome.panic
    ∧ (start_log_stream valid compile targets filter exclude inputs).history = []
    ∧ (start_log_stream valid compile targets filter exclude inputs).rendered = []
    ∧ (start_log_stream valid compile targets filter exclude inputs).spawned = targets := by
  rcases h with h | h
  · simp [start_log_stream, h]
  · by_cases hf : compileOk valid filter = true
    · simp [start_log_stream, hf, h]
    · simp only [Bool.not_eq_true] at hf
      simp [start_log_stream, hf]

/-- Witness for C7 amended: a concrete invalid exclude pattern. -/
theorem invalid_pattern_panics_before_loop_witness :
    (start_log_stream (fun _ => false) (fun _ _ => true) [("pod2", "c2")]
        none (some "[") []).outcome = Outcome.panic :=
  (invalid_pattern_panics_before_loop (fun _ => false) (fun _ _ => true)
    [("pod2", "c2")] none (some "[") [] (Or.inr (by decide))).1

/-- C8 counterexample: after a read error the worker keeps reading and sends
the following line, so a read error does not cause the worker to stop; a
worker that stopped at the first read error would send nothing here. -/
theorem worker_read_error_cex :
    tail_logs "p" "c" true [Except.error "boom", Except.ok "later"]
      = [⟨"p", "c", "later"⟩]
    ∧ workerStopsOnReadError "p" "c" [Except.error "boom", Except.ok "later"] = []
    ∧ ([⟨"p", "c", "later"⟩] : List LogMessage) ≠ [] := by decide

/-- C8 amended: the worker sends exactly the successfully read lines, skipping
over read errors and continuing; it stops when the stream closes, and when the
channel's receive side is gone it sends nothing further. -/
theorem worker_skips_read_errors (pod container : String)
    (results : List (Except String String)) :
    tail_logs pod container true results
      = results.filterMap (fun r => match r with
          | Except.ok l => some ⟨pod, container, l⟩
          | Except.error _ => none)
    ∧ tail_logs pod container false results = [] := by
  constructor
  · induction results with
    | nil => rfl
    | cons r rest ih => cases r <;> simp [tail_logs, ih]
  · induction results with
    | nil => rfl
    | cons r rest ih => cases r <;> simp [tail_logs, ih]

/-- C9: in state Streaming a received message is appended to the history,
eviction included, before the filter runs; only messages that survive
filtering are handed to the renderer; a message the filter discards is still
retained in history and returned by a matching search. -/
theorem streaming_append_before_filter (fR eR : Option (String → Bool)) (st : LoopState)
    (log : LogMessage) (kev : KeyEvt) (q : String) :
    ((loopIter fR eR st (some log) kev).1.history = histAppend st.history log)
    ∧ log ∈ (loopIter fR eR st (some log) kev).1.history
    ∧ (keepLog fR eR log = true →
        (loopIter fR eR st (some log) kev).1.rendered = st.rendered ++ [log])
    ∧ (keepLog fR eR log = false →
        (loopIter fR eR st (some log) kev).1.rendered = st.rendered)
    ∧ (keepLog fR eR log = false → containsCI log.message q = true →
        log ∈ searchHistory (loopIter fR eR st (some log) kev).1.history q) := by
  have hmem : log ∈ histAppend st.history log := by
    simp [histAppend]
  cases h : keepLog fR eR log with
  | false =>
    refine ⟨by simp [loopIter, h], by simpa [loopIter, h] using hmem,
      by simp [h], fun _ => by simp [loopIter, h], fun _ hq => ?_⟩
    apply List.mem_filter.mpr
    exact ⟨by simpa [loopIter, h] using hmem, by simpa using hq⟩
  | true =>
    refine ⟨by simp [loopIter, h], by simpa [loopIter, h] using hmem,
      fun _ => by simp [loopIter, h], by simp [h], by simp [h]⟩

/-- Witness for C9: an exclude-matched message is not rendered but is found by
a search for its text. -/
theorem streaming_append_before_filter_witness :
    (loopIter none (some (fun s => decide (s = "boom"))) ⟨[], [], true⟩
        (some ⟨"p", "c", "boom"⟩) KeyEvt.noKey).1.rendered = []
    ∧ ⟨"p", "c", "boom"⟩ ∈ searchHistory
        (loopIter none (some (fun s => decide (s = "boom"))) ⟨[], [], true⟩
          (some ⟨"p", "c", "boom"⟩) KeyEvt.noKey).1.history "boom" :=
  ⟨(streaming_append_before_filter none (some (fun s => decide (s = "boom")))
      ⟨[], [], true⟩ ⟨"p", "c", "boom"⟩ KeyEvt.noKey "boom").2.2.2.1 (by decide),
   (streaming_append_before_filter none (some (fun s => decide (s = "boom")))
      ⟨[], [], true⟩ ⟨"p", "c", "boom"⟩ KeyEvt.noKey "boom").2.2.2.2
      (by decide) (by decide)⟩

end Klog
